import Mathlib

/-!
# Verification of the rust-calculator expression engine

Shallow embedding of the core evaluation engine of `src/lib.rs`
(tokenizer, shunting-yard parser, RPN evaluator, function/operator
library, memory register and variable store) together with proofs of
the specification claims.

Modelling conventions:
* IEEE `f64` values are modelled exactly by the type `F`: a rational
  number, positive/negative infinity, or NaN.  Rounding is not
  modelled; every claim below only evaluates values on which `f64`
  arithmetic is exact (small integers and short decimal fractions),
  or is insensitive to the numeric value.  There is no negative zero
  in the model.
* The transcendental functions (`sin`, `cos`, ..., `sqrt`, `exp`) have
  irrational values not representable in the rational model; they are
  supplied by an oracle structure `TransOracle` and every theorem is
  proved for an arbitrary oracle, so no result depends on their values.
* The global memory register (`static MEMORY`) and variable map
  (`static VARIABLES`) are modelled by an explicit state `CalcState`
  threaded through the evaluator.
-/

namespace RustCalc

/- The arithmetic on `Rat` is `@[irreducible]` in Batteries; restore
definitional reduction so that concrete runs of the evaluator can be
checked by `rfl`/`decide`. -/
attribute [local semireducible] Rat.add Rat.mul Rat.sub Rat.inv Rat.ofScientific

/-- Model of an IEEE `f64`: an exact rational, an infinity, or NaN. -/
inductive F where
  | fin (q : ℚ)
  | inf
  | neginf
  | nan
deriving DecidableEq, Repr

/-- IEEE addition on the model (no rounding, no negative zero). -/
def F.add : F → F → F
  | .nan, _ => .nan
  | _, .nan => .nan
  | .fin a, .fin b => .fin (a + b)
  | .inf, .neginf => .nan
  | .neginf, .inf => .nan
  | .inf, _ => .inf
  | _, .inf => .inf
  | .neginf, _ => .neginf
  | _, .neginf => .neginf

/-- IEEE subtraction on the model. -/
def F.sub : F → F → F
  | .nan, _ => .nan
  | _, .nan => .nan
  | .fin a, .fin b => .fin (a - b)
  | .inf, .inf => .nan
  | .neginf, .neginf => .nan
  | .inf, _ => .inf
  | .neginf, _ => .neginf
  | _, .inf => .neginf
  | _, .neginf => .inf

/-- IEEE multiplication on the model. -/
def F.mul : F → F → F
  | .nan, _ => .nan
  | _, .nan => .nan
  | .fin a, .fin b => .fin (a * b)
  | .inf, .inf => .inf
  | .inf, .neginf => .neginf
  | .neginf, .inf => .neginf
  | .neginf, .neginf => .inf
  | .inf, .fin b => if 0 < b then .inf else if b < 0 then .neginf else .nan
  | .fin a, .inf => if 0 < a then .inf else if a < 0 then .neginf else .nan
  | .neginf, .fin b => if 0 < b then .neginf else if b < 0 then .inf else .nan
  | .fin a, .neginf => if 0 < a then .neginf else if a < 0 then .inf else .nan

/-- IEEE division on the model (the evaluator only divides by nonzero
values; division by zero follows the sign conventions without a
negative zero). -/
def F.div : F → F → F
  | .nan, _ => .nan
  | _, .nan => .nan
  | .fin a, .fin b =>
      if b = 0 then (if 0 < a then .inf else if a < 0 then .neginf else .nan)
      else .fin (a / b)
  | .inf, .fin b => if 0 ≤ b then .inf else .neginf
  | .neginf, .fin b => if 0 ≤ b then .neginf else .inf
  | .fin _, .inf => .fin 0
  | .fin _, .neginf => .fin 0
  | _, _ => .nan

/-- Truncation toward zero, as Rust `f64::trunc`. -/
def ratTrunc (q : ℚ) : ℤ := if 0 ≤ q then ⌊q⌋ else ⌈q⌉

/-- Rust `%` on `f64`: remainder with the sign of the dividend,
`a - b * trunc(a / b)`.  A finite value modulo an infinity is the
value itself; other non-finite cases are NaN. -/
def F.rem : F → F → F
  | .nan, _ => .nan
  | _, .nan => .nan
  | .fin a, .fin b => if b = 0 then .nan else .fin (a - b * ratTrunc (a / b))
  | .fin a, .inf => .fin a
  | .fin a, .neginf => .fin a
  | _, _ => .nan

/-- Model of `f64::powf` restricted to the cases the claims exercise:
a finite base raised to a finite integral exponent is computed exactly
(`zpow`); a zero base with a negative exponent gives infinity.  NaN,
infinite, or non-integral arguments produce irrational or
sign-dependent values outside the exact rational model and are mapped
to NaN (no claim evaluates them). -/
def F.powf : F → F → F
  | .fin a, .fin b =>
      if b.den = 1 then
        if 0 ≤ b.num then .fin (a ^ b.num.toNat)
        else if a = 0 then .inf
        else .fin (a ^ b.num)
      else .nan
  | _, _ => .nan

/-- The test `value == 0.0` (NaN compares false; the model has no
negative zero). -/
def F.isZero : F → Bool
  | .fin q => q = 0
  | _ => false

/-- The test `value < 0.0` (NaN compares false). -/
def F.lt0 : F → Bool
  | .fin q => q < 0
  | .neginf => true
  | _ => false

/-- The test `value < c` for a finite constant `c`. -/
def F.ltQ : F → ℚ → Bool
  | .fin q, c => q < c
  | .neginf, _ => true
  | _, _ => false

/-- The test `value > c` for a finite constant `c`. -/
def F.gtQ : F → ℚ → Bool
  | .fin q, c => c < q
  | .inf, _ => true
  | _, _ => false

/-- The test `value <= c` for a finite constant `c` (NaN compares
false). -/
def F.leQ : F → ℚ → Bool
  | .fin q, c => q ≤ c
  | .neginf, _ => true
  | _, _ => false

/-- Rust `f64::abs`. -/
def F.fabs : F → F
  | .fin q => .fin |q|
  | .inf => .inf
  | .neginf => .inf
  | .nan => .nan

/-- Rust `f64::floor`. -/
def F.ffloor : F → F
  | .fin q => .fin (⌊q⌋ : ℤ)
  | x => x

/-- Rust `f64::ceil`. -/
def F.fceil : F → F
  | .fin q => .fin (⌈q⌉ : ℤ)
  | x => x

/-- The test `value.fract() != 0.0`.  For a finite value the
fractional part is nonzero iff the rational is not an integer; the
fractional part of an infinity or NaN is NaN, and `NaN != 0.0` is
true. -/
def F.fractNonzero : F → Bool
  | .fin q => q.den ≠ 1
  | _ => true

/-- Rust `value as u64` (saturating cast; NaN casts to 0). -/
def F.toU64 : F → Nat
  | .fin q => if q < 0 then 0 else min q.num.toNat (2 ^ 64 - 1)
  | .inf => 2 ^ 64 - 1
  | _ => 0

/-! ## String helpers

The scanner in the source works character by character; the model works
on `List Char` so that every step is a plain structural recursion.
Rust's `to_lowercase` is modelled by ASCII lowercasing, which agrees
with it on every identifier the engine recognizes. -/

/-- Rust `str::trim`: drop whitespace from both ends. -/
def trimChars (cs : List Char) : List Char :=
  ((cs.dropWhile Char.isWhitespace).reverse.dropWhile Char.isWhitespace).reverse

/-- Rust `str::trim` on strings. -/
def strTrim (s : String) : String := String.mk (trimChars s.toList)

/-- Rust `str::ends_with`. -/
def strEndsWith (s suf : String) : Bool := suf.toList.isSuffixOf s.toList

/-- Drop the last `n` characters (the residue of `strip_suffix`). -/
def strDropRight (s : String) (n : Nat) : String :=
  String.mk (s.toList.take (s.toList.length - n))

/-- Rust `str::to_lowercase` (ASCII). -/
def strToLower (s : String) : String := String.mk (s.toList.map Char.toLower)

/-- Boolean infix test on character lists. -/
def listIsInfixOf (pat : List Char) : List Char → Bool
  | [] => pat.isEmpty
  | c :: cs => pat.isPrefixOf (c :: cs) || listIsInfixOf pat cs

/-- Rust `str::contains("_to_")`. -/
def containsToStr (s : String) : Bool := listIsInfixOf "_to_".toList s.toList

/-- Helper for `split_whitespace`: accumulate the current word
(reversed) and split at whitespace, dropping empty words. -/
def splitWsAux : List Char → List Char → List String
  | [], acc => if acc.isEmpty then [] else [String.mk acc.reverse]
  | c :: cs, acc =>
      if c.isWhitespace then
        if acc.isEmpty then splitWsAux cs []
        else String.mk acc.reverse :: splitWsAux cs []
      else splitWsAux cs (c :: acc)

/-- Rust `str::split_whitespace`. -/
def splitWhitespace (s : String) : List String := splitWsAux s.toList []

/-! ## Parsing of `f64` literals

Model of Rust `f64::from_str`, producing the exact rational value of
the decimal literal (the rounding of that rational to the nearest
double is not modelled).  Accepted forms: an optional sign, then either
`inf`/`infinity`/`nan` (case-insensitive) or a decimal mantissa with an
optional fraction and an optional decimal exponent. -/

/-- Strip an optional leading sign; return whether it was negative. -/
def parseSign : List Char → Bool × List Char
  | '+' :: cs => (false, cs)
  | '-' :: cs => (true, cs)
  | cs => (false, cs)

/-- Numeric value of a digit string. -/
def digitsVal (cs : List Char) : ℕ :=
  cs.foldl (fun a c => 10 * a + (c.toNat - 48)) 0

/-- All characters are decimal digits. -/
def allDigits (cs : List Char) : Bool := cs.all Char.isDigit

/-- Split at the first `e`/`E` (exponent marker). -/
def splitAtExp : List Char → List Char × Option (List Char)
  | [] => ([], none)
  | c :: cs =>
      if c = 'e' ∨ c = 'E' then ([], some cs)
      else
        let r := splitAtExp cs
        (c :: r.1, r.2)

/-- Split at the first `.` (decimal point). -/
def splitAtDot : List Char → List Char × Option (List Char)
  | [] => ([], none)
  | c :: cs =>
      if c = '.' then ([], some cs)
      else
        let r := splitAtDot cs
        (c :: r.1, r.2)

/-- Parse the mantissa `digits[.digits]` (at least one digit overall). -/
def parseMantissa (cs : List Char) : Option ℚ :=
  let p := splitAtDot cs
  match p.2 with
  | none =>
      if p.1 ≠ [] ∧ allDigits p.1 then some (digitsVal p.1 : ℚ) else none
  | some f =>
      if allDigits p.1 ∧ allDigits f ∧ (p.1 ≠ [] ∨ f ≠ []) then
        some ((digitsVal p.1 : ℚ) + (digitsVal f : ℚ) / (10 : ℚ) ^ f.length)
      else none

/-- Parse the exponent part after `e`/`E`: optional sign, digits. -/
def parseExpPart (cs : List Char) : Option ℤ :=
  let p := parseSign cs
  if p.2 ≠ [] ∧ allDigits p.2 then
    some (if p.1 then -(digitsVal p.2 : ℤ) else (digitsVal p.2 : ℤ))
  else none

/-- Model of Rust `str::parse::<f64>()`. -/
def parseFloat (s : String) : Option F :=
  let p := parseSign s.toList
  let lower := strToLower (String.mk p.2)
  if lower = "inf" ∨ lower = "infinity" then
    some (if p.1 then .neginf else .inf)
  else if lower = "nan" then some .nan
  else
    let me := splitAtExp p.2
    match parseMantissa me.1 with
    | none => none
    | some m =>
        match me.2 with
        | none => some (.fin (if p.1 then -m else m))
        | some ecs =>
            match parseExpPart ecs with
            | none => none
            | some e =>
                let q := m * (10 : ℚ) ^ e
                some (.fin (if p.1 then -q else q))

/-! ## Data model: errors, tokens, state -/

/-- The `CalculatorError` enum of the source. -/
inductive CalcError where
  | parseError (msg : String)
  | mathError (msg : String)
  | syntaxError (msg : String)
  | argumentError (msg : String)
  | other (msg : String)
deriving DecidableEq, Repr

/-- The `Token` enum of the source. -/
inductive Token where
  | number (v : F)
  | operator (op : String)
  | function (name : String)
  | leftParen
  | rightParen
deriving DecidableEq, Repr

/-- `Token::is_function`. -/
def Token.is_function : Token → Bool
  | .function _ => true
  | _ => false

/-- `Token::is_operator`. -/
def Token.is_operator : Token → Bool
  | .operator _ => true
  | _ => false

/-- `Token::get_number`. -/
def Token.get_number : Token → Except CalcError F
  | .number n => .ok n
  | _ => .error (.parseError "Expected a number")

/-- `Token::get_operator`. -/
def Token.get_operator : Token → Except CalcError String
  | .operator op => .ok op
  | _ => .error (.parseError "Expected an operator")

/-- `Token::get_function`. -/
def Token.get_function : Token → Except CalcError String
  | .function fn => .ok fn
  | _ => .error (.parseError "Expected a function")

/-- The mutable globals of the source (`static MEMORY`,
`static VARIABLES`) as an explicit state.  The variable map is an
association list keyed by lowercase names. -/
structure CalcState where
  mem : F
  vars : List (String × F)
deriving DecidableEq, Repr

/-- `get_variable`: look the lowercased name up in the store. -/
def get_variable (st : CalcState) (name : String) : Option F :=
  (st.vars.find? (fun p => p.1 = strToLower name)).map (fun p => p.2)

/-- `set_variable` (without the file-persistence side effect): insert
or overwrite the lowercased name. -/
def set_variable (st : CalcState) (name : String) (v : F) : CalcState :=
  { st with vars :=
      (strToLower name, v) :: st.vars.filter (fun p => p.1 ≠ strToLower name) }

/-! ## Constants and the conversion table -/

/-- The `f64` value of `std::f64::consts::PI`
(the double nearest π, `884279719003555 / 2^48`). -/
def piF64 : ℚ := 884279719003555 / 281474976710656

/-- The `f64` value of `std::f64::consts::E`
(the double nearest e, `6121026514868073 / 2^51`). -/
def eF64 : ℚ := 6121026514868073 / 2251799813685248

/-- The `f64` value of `std::f64::consts::TAU` (exactly `2 * PI`). -/
def tauF64 : ℚ := 884279719003555 / 140737488355328

/-- The golden-ratio literal `1.618033988749895` of the source. -/
def phiF64 : ℚ := 1618033988749895 / 1000000000000000

/-- The `conversions` array of `evaluate_expression`, in source order. -/
def conversions : List String :=
  ["km_to_mi", "mi_to_km", "kg_to_lb", "lb_to_kg", "c_to_f", "f_to_c",
   "rad_to_deg", "deg_to_rad", "in_to_cm", "cm_to_in", "gal_to_l", "l_to_gal"]

/-- `is_valid_conversion` (the `matches!` of the source tests exactly
this set). -/
def is_valid_conversion (conversion : String) : Bool :=
  conversions.contains conversion

/-- The built-in unary function names recognized by `add_token`. -/
def builtinFunctions : List String :=
  ["sqrt", "sin", "cos", "tan", "asin", "acos", "atan", "log", "ln",
   "exp", "abs", "floor", "ceil", "fact"]

/-- Constant resolution of `add_token` (the `match` on the lowercased
buffer). -/
def constValue? (s : String) : Option F :=
  match strToLower s with
  | "pi" => some (.fin piF64)
  | "e" => some (.fin eF64)
  | "tau" => some (.fin tauF64)
  | "phi" => some (.fin phiF64)
  | "inf" => some .inf
  | "infinity" => some .inf
  | _ => none

/-! ## Function/operator library -/

/-- `evaluate_binary_operation`. -/
def evaluate_binary_operation (left : F) (operator : String) (right : F) :
    Except CalcError F :=
  match operator with
  | "+" => .ok (left.add right)
  | "-" => .ok (left.sub right)
  | "*" => .ok (left.mul right)
  | "/" =>
      if right.isZero then .error (.mathError "Division by zero")
      else .ok (left.div right)
  | "%" =>
      if right.isZero then .error (.mathError "Modulo by zero")
      else .ok (left.rem right)
  | "^" => .ok (left.powf right)
  | op => .error (.syntaxError ("Unknown operator: " ++ op))

/-- The factorial loop of the `fact` arm:
`result = 1.0; for i in 2..=n { result *= i as f64 }`. -/
def factProd (n : Nat) : ℚ :=
  (List.range' 2 (n - 1)).foldl (fun (acc : ℚ) (i : ℕ) => acc * (i : ℚ)) 1

/-- Oracles for the transcendental `f64` routines.  Each field stands
for the whole `Ok`-branch computation of the corresponding arm of
`evaluate_function` (for example `sinO` models
`fun v => v.to_radians().sin()` and `asinO` models
`fun v => v.asin().to_degrees()`).  Every theorem below is proved for
an arbitrary oracle, so no claim depends on these values. -/
structure TransOracle where
  sqrtO : F → F
  sinO : F → F
  cosO : F → F
  tanO : F → F
  asinO : F → F
  acosO : F → F
  atanO : F → F
  logO : F → F
  lnO : F → F
  expO : F → F

/-- `evaluate_function`: the unary function/memory/conversion library.
Memory operations mutate the state; everything else leaves it
untouched. -/
def evaluate_function (O : TransOracle) (st : CalcState)
    (fname : String) (value : F) : Except CalcError F × CalcState :=
  match fname with
  | "sqrt" =>
      if value.lt0 then
        (.error (.argumentError "Cannot calculate square root of negative number"), st)
      else (.ok (O.sqrtO value), st)
  | "sin" => (.ok (O.sinO value), st)
  | "cos" => (.ok (O.cosO value), st)
  | "tan" => (.ok (O.tanO value), st)
  | "asin" =>
      if value.ltQ (-1) || value.gtQ 1 then
        (.error (.argumentError "Inverse sine argument must be between -1 and 1"), st)
      else (.ok (O.asinO value), st)
  | "acos" =>
      if value.ltQ (-1) || value.gtQ 1 then
        (.error (.argumentError "Inverse cosine argument must be between -1 and 1"), st)
      else (.ok (O.acosO value), st)
  | "atan" => (.ok (O.atanO value), st)
  | "log" =>
      if value.leQ 0 then
        (.error (.argumentError "Cannot calculate logarithm of non-positive number"), st)
      else (.ok (O.logO value), st)
  | "ln" =>
      if value.leQ 0 then
        (.error (.argumentError "Cannot calculate natural logarithm of non-positive number"), st)
      else (.ok (O.lnO value), st)
  | "exp" => (.ok (O.expO value), st)
  | "abs" => (.ok value.fabs, st)
  | "floor" => (.ok value.ffloor, st)
  | "ceil" => (.ok value.fceil, st)
  | "fact" =>
      if value.lt0 then
        (.error (.argumentError "Cannot calculate factorial of negative number"), st)
      else if value.fractNonzero then
        (.error (.argumentError "Factorial requires an integer value"), st)
      else (.ok (.fin (factProd value.toU64)), st)
  | "m+" =>
      let m := st.mem.add value
      (.ok m, { st with mem := m })
  | "m-" =>
      let m := st.mem.sub value
      (.ok m, { st with mem := m })
  | "mr" => (.ok st.mem, st)
  | "mc" => (.ok (.fin 0), { st with mem := .fin 0 })
  | "km_to_mi" => (.ok (value.mul (.fin (621371 / 1000000))), st)
  | "mi_to_km" => (.ok (value.mul (.fin (160934 / 100000))), st)
  | "kg_to_lb" => (.ok (value.mul (.fin (220462 / 100000))), st)
  | "lb_to_kg" => (.ok (value.mul (.fin (453592 / 1000000))), st)
  | "c_to_f" => (.ok (((value.mul (.fin 9)).div (.fin 5)).add (.fin 32)), st)
  | "f_to_c" => (.ok (((value.sub (.fin 32)).mul (.fin 5)).div (.fin 9)), st)
  | "rad_to_deg" => (.ok ((value.mul (.fin 180)).div (.fin piF64)), st)
  | "deg_to_rad" => (.ok ((value.mul (.fin piF64)).div (.fin 180)), st)
  | "in_to_cm" => (.ok (value.mul (.fin (254 / 100))), st)
  | "cm_to_in" => (.ok (value.div (.fin (254 / 100))), st)
  | "gal_to_l" => (.ok (value.mul (.fin (378541 / 100000))), st)
  | "l_to_gal" => (.ok (value.div (.fin (378541 / 100000))), st)
  | f => (.error (.syntaxError ("Unknown function: " ++ f)), st)

/-! ## Tokenizer -/

/-- `add_token`: resolve a flushed buffer, in source order — float
literal, memory op, conversion identifier, constant, built-in
function, variable — or fail with `ParseError`. -/
def add_token (st : CalcState) (tokens : List Token) (tok : String) :
    Except CalcError (List Token) :=
  match parseFloat tok with
  | some v => .ok (tokens ++ [.number v])
  | none =>
      if tok = "m+" ∨ tok = "m-" ∨ tok = "mr" ∨ tok = "mc" then
        .ok (tokens ++ [.function tok])
      else if containsToStr tok ∧ is_valid_conversion tok then
        .ok (tokens ++ [.function tok])
      else
        match constValue? tok with
        | some v => .ok (tokens ++ [.number v])
        | none =>
            if builtinFunctions.contains tok then
              .ok (tokens ++ [.function tok])
            else
              match get_variable st tok with
              | some v => .ok (tokens ++ [.number v])
              | none => .error (.parseError ("Unknown token: " ++ tok))

/-- The unary-minus context test of `tokenize`: the token list is
empty or ends in an operator, a left parenthesis, or a function. -/
def unaryMinusContext (tokens : List Token) : Bool :=
  match tokens.getLast? with
  | none => true
  | some (.operator _) => true
  | some .leftParen => true
  | some (.function _) => true
  | some _ => false

/-- The operator characters of the scanner. -/
def isOpChar (c : Char) : Bool :=
  c = '+' ∨ c = '-' ∨ c = '*' ∨ c = '/' ∨ c = '%' ∨ c = '^'

/-- The character loop of `tokenize`: remaining characters, pending
buffer, accumulated tokens. -/
def tokenizeLoop (st : CalcState) :
    List Char → List Char → List Token → Except CalcError (List Token)
  | [], cur, tokens =>
      if cur.isEmpty then .ok tokens
      else add_token st tokens (String.mk cur)
  | ch :: rest, cur, tokens =>
      if ch.isWhitespace then
        if cur.isEmpty then tokenizeLoop st rest [] tokens
        else
          match add_token st tokens (String.mk cur) with
          | .error e => .error e
          | .ok toks => tokenizeLoop st rest [] toks
      else if ch.isDigit ∨ ch = '.' then
        tokenizeLoop st rest (cur ++ [ch]) tokens
      else if isOpChar ch then
        if (ch = '+' ∨ ch = '-') ∧ cur = ['m'] then
          match add_token st tokens (String.mk (cur ++ [ch])) with
          | .error e => .error e
          | .ok toks => tokenizeLoop st rest [] toks
        else
          match (if cur.isEmpty then .ok tokens
                 else add_token st tokens (String.mk cur) :
                 Except CalcError (List Token)) with
          | .error e => .error e
          | .ok toks =>
              if ch = '-' ∧ unaryMinusContext toks then
                tokenizeLoop st rest ['-'] toks
              else
                tokenizeLoop st rest [] (toks ++ [.operator (String.mk [ch])])
      else if ch = '(' then
        let toks := if cur.isEmpty then tokens
                    else tokens ++ [.function (String.mk cur)]
        tokenizeLoop st rest [] (toks ++ [.leftParen])
      else if ch = ')' then
        match (if cur.isEmpty then .ok tokens
               else add_token st tokens (String.mk cur) :
               Except CalcError (List Token)) with
        | .error e => .error e
        | .ok toks => tokenizeLoop st rest [] (toks ++ [.rightParen])
      else
        tokenizeLoop st rest (cur ++ [ch]) tokens

/-- The fix-ups of `tokenize` after the character loop: pad a lone
`mr`/`mc` with `Number(0.0)`, and reorder a two-token
`[value, conversion]` stream (reading the value with `get_number`,
which can fail). -/
def tokenizePost (tokens : List Token) : Except CalcError (List Token) :=
  let tokens1 :=
    match tokens with
    | [Token.function f] =>
        if f = "mr" ∨ f = "mc" then [Token.function f, Token.number (F.fin 0)]
        else [Token.function f]
    | ts => ts
  match tokens1 with
  | [t0, Token.function f] =>
      if containsToStr f then
        match t0.get_number with
        | .error e => .error e
        | .ok v => .ok [Token.number v, Token.function f]
      else .ok [t0, Token.function f]
  | ts => .ok ts

/-- `tokenize`: the short-circuit for a bare `mr`/`mc`, then the
character loop and the fix-ups. -/
def tokenize (st : CalcState) (expression : String) :
    Except CalcError (List Token) :=
  if strTrim expression = "mr" ∨ strTrim expression = "mc" then
    .ok [.function (strTrim expression), .number (.fin 0)]
  else
    match tokenizeLoop st expression.toList [] [] with
    | .error e => .error e
    | .ok tokens => tokenizePost tokens

/-! ## Shunting yard -/

/-- `get_precedence`. -/
def get_precedence (op : String) : Nat :=
  match op with
  | "+" => 1
  | "-" => 1
  | "*" => 2
  | "/" => 2
  | "%" => 2
  | "^" => 3
  | _ => 0

/-- Right-parenthesis handling: pop the operator stack (head = top) to
the output until a left parenthesis is found and discarded; `none`
when there is none. -/
def popParen : List Token → List Token → Option (List Token × List Token)
  | [], _ => none
  | Token.leftParen :: rest, out => some (rest, out)
  | t :: rest, out => popParen rest (out ++ [t])

/-- Operator handling: pop while the top is an operator of higher (or,
for a left-associative operator, equal) precedence, and pop any
function unconditionally; stop at a left parenthesis. -/
def popOps (op : String) : List Token → List Token → List Token × List Token
  | [], out => ([], out)
  | Token.operator top :: rest, out =>
      if get_precedence op ≤ get_precedence top ∧
         (op ≠ "^" ∨ get_precedence op < get_precedence top) then
        popOps op rest (out ++ [Token.operator top])
      else (Token.operator top :: rest, out)
  | Token.function f :: rest, out => popOps op rest (out ++ [Token.function f])
  | stack, out => (stack, out)

/-- End of input: pop the remaining stack to the output; a surfacing
parenthesis is a mismatch error. -/
def drainStack : List Token → List Token → Except CalcError (List Token)
  | [], out => .ok out
  | Token.leftParen :: _, _ =>
      .error (.syntaxError "Mismatched parentheses: missing ')'")
  | Token.rightParen :: _, _ =>
      .error (.syntaxError "Mismatched parentheses: extra ')'")
  | t :: rest, out => drainStack rest (out ++ [t])

/-- The token loop of the shunting-yard conversion: input tokens,
operator stack (head = top), output queue. -/
def shuntLoop : List Token → List Token → List Token →
    Except CalcError (List Token)
  | [], opstack, out => drainStack opstack out
  | t :: ts, opstack, out =>
      match t with
      | Token.number v => shuntLoop ts opstack (out ++ [Token.number v])
      | Token.function f => shuntLoop ts (Token.function f :: opstack) out
      | Token.leftParen => shuntLoop ts (Token.leftParen :: opstack) out
      | Token.rightParen =>
          match popParen opstack out with
          | none => .error (.syntaxError "Mismatched parentheses: missing '('")
          | some r =>
              match r.1 with
              | Token.function f :: rest =>
                  shuntLoop ts rest (r.2 ++ [Token.function f])
              | stack1 => shuntLoop ts stack1 r.2
      | Token.operator op =>
          let r := popOps op opstack out
          shuntLoop ts (Token.operator op :: r.1) r.2

/-! ## RPN evaluator -/

/-- The token loop of `evaluate_rpn`: operand stack of `f64` values
(head = top); on an error the state reached so far is kept (the
source mutates global memory in place). -/
def rpnLoop (O : TransOracle) :
    CalcState → List Token → List F → Except CalcError (List F) × CalcState
  | st, [], stack => (.ok stack, st)
  | st, t :: ts, stack =>
      match t with
      | Token.number n => rpnLoop O st ts (n :: stack)
      | Token.operator op =>
          match stack with
          | right :: left :: rest =>
              match evaluate_binary_operation left op right with
              | .error e => (.error e, st)
              | .ok r => rpnLoop O st ts (r :: rest)
          | _ => (.error (.syntaxError "Invalid expression: not enough operands"), st)
      | Token.function f =>
          match stack with
          | arg :: rest =>
              match evaluate_function O st f arg with
              | (.error e, st2) => (.error e, st2)
              | (.ok r, st2) => rpnLoop O st2 ts (r :: rest)
          | [] => (.error (.syntaxError "Invalid expression: function without argument"), st)
      | _ => (.error (.syntaxError "Unexpected token in RPN evaluation"), st)

/-- `evaluate_rpn`: run the loop and require exactly one remaining
operand. -/
def evaluate_rpn (O : TransOracle) (st : CalcState) (tokens : List Token) :
    Except CalcError F × CalcState :=
  match rpnLoop O st tokens [] with
  | (.error e, st2) => (.error e, st2)
  | (.ok [v], st2) => (.ok v, st2)
  | (.ok _, st2) =>
      (.error (.syntaxError "Invalid expression: too many operands"), st2)

/-- The general path of `evaluate_complex_expression`: shunting yard,
then RPN evaluation. -/
def complexGeneral (O : TransOracle) (st : CalcState) (tokens : List Token) :
    Except CalcError F × CalcState :=
  match shuntLoop tokens [] [] with
  | .error e => (.error e, st)
  | .ok rpn => evaluate_rpn O st rpn

/-- `evaluate_complex_expression`: the two-token fast paths for memory
ops and conversions, then shunting yard plus RPN evaluation. -/
def evaluate_complex_expression (O : TransOracle) (st : CalcState)
    (tokens : List Token) : Except CalcError F × CalcState :=
  match tokens with
  | [Token.function f, Token.number n] =>
      if f = "m+" ∨ f = "m-" then evaluate_function O st f n
      else complexGeneral O st [Token.function f, Token.number n]
  | [Token.number n, Token.function f] =>
      if containsToStr f then evaluate_function O st f n
      else complexGeneral O st [Token.number n, Token.function f]
  | ts => complexGeneral O st ts

/-! ## Top-level evaluation -/

/-- The dispatch of `evaluate_expression` on the shape of the token
stream (empty / unary function / simple binary / complex / single
number / invalid). -/
def dispatchTokens (O : TransOracle) (st : CalcState) (tokens : List Token) :
    Except CalcError F × CalcState :=
  match tokens with
  | [] => (.error (.syntaxError "Empty expression"), st)
  | [t0, t1] =>
      if t0.is_function then
        match t0.get_function with
        | .error e => (.error e, st)
        | .ok f =>
            match t1.get_number with
            | .error e => (.error e, st)
            | .ok v => evaluate_function O st f v
      else (.error (.syntaxError "Invalid expression format"), st)
  | [t0, t1, t2] =>
      if t1.is_operator then
        match t0.get_number with
        | .error e => (.error e, st)
        | .ok left =>
            match t1.get_operator with
            | .error e => (.error e, st)
            | .ok op =>
                match t2.get_number with
                | .error e => (.error e, st)
                | .ok right => (evaluate_binary_operation left op right, st)
      else (.error (.syntaxError "Invalid expression format"), st)
  | [t0] =>
      match t0.get_number with
      | .error e => (.error e, st)
      | .ok v => (.ok v, st)
  | ts => evaluate_complex_expression O st ts

/-- The conversion-suffix loop of `evaluate_expression` (its "Case 2",
format like `10km_to_mi`): the first conversion in table order that is
a suffix of the trimmed input and whose remaining prefix parses as a
float. -/
def convSuffixLoop : List String → String → Option (String × F)
  | [], _ => none
  | conv :: rest, trimmed =>
      if strEndsWith trimmed conv then
        match parseFloat (strTrim (strDropRight trimmed conv.toList.length)) with
        | some v => some (conv, v)
        | none => convSuffixLoop rest trimmed
      else convSuffixLoop rest trimmed

/-- The tail of `evaluate_expression` after the memory and two-part
conversion fast paths: the no-space conversion form, then general
tokenization and dispatch.  Note the source tokenizes the original
(untrimmed) expression. -/
def evaluate_general (O : TransOracle) (st : CalcState)
    (expression trimmed : String) : Except CalcError F × CalcState :=
  match convSuffixLoop conversions trimmed with
  | some r => evaluate_function O st r.1 r.2
  | none =>
      match tokenize st expression with
      | .error e => (.error e, st)
      | .ok tokens => dispatchTokens O st tokens

/-- `evaluate_expression`: the sole entry point.  Fast paths in source
order — bare `mr`/`mc`, suffix `m+`/`m-` with a parsing prefix,
two-part conversion (number or `pi`/`e` constant), no-space conversion
suffix — then general tokenization and dispatch. -/
def evaluate_expression (O : TransOracle) (st : CalcState)
    (expression : String) : Except CalcError F × CalcState :=
  if strTrim expression = "mr" then (.ok st.mem, st)
  else if strTrim expression = "mc" then
    (.ok (F.fin 0), { st with mem := F.fin 0 })
  else
    match (if strEndsWith (strTrim expression) "m+" then
             parseFloat (strTrim (strDropRight (strTrim expression) 2))
           else none) with
    | some v =>
        (.ok (st.mem.add v), { st with mem := st.mem.add v })
    | none =>
    match (if strEndsWith (strTrim expression) "m-" then
             parseFloat (strTrim (strDropRight (strTrim expression) 2))
           else none) with
    | some v =>
        (.ok (st.mem.sub v), { st with mem := st.mem.sub v })
    | none =>
    match splitWhitespace (strTrim expression) with
    | [p0, p1] =>
        match parseFloat p0 with
        | some v =>
            if conversions.contains p1 then evaluate_function O st p1 v
            else evaluate_general O st expression (strTrim expression)
        | none =>
            if strToLower p0 = "pi" ∧ conversions.contains p1 then
              evaluate_function O st p1 (F.fin piF64)
            else if strToLower p0 = "e" ∧ conversions.contains p1 then
              evaluate_function O st p1 (F.fin eF64)
            else evaluate_general O st expression (strTrim expression)
    | _ => evaluate_general O st expression (strTrim expression)

/-! ## Concrete instances used by closed counterexamples and witnesses -/

/-- A concrete transcendental oracle (its values are irrelevant to
every claim; closed theorems need some instance). -/
def defaultOracle : TransOracle :=
  ⟨fun _ => F.nan, fun _ => F.nan, fun _ => F.nan, fun _ => F.nan,
   fun _ => F.nan, fun _ => F.nan, fun _ => F.nan, fun _ => F.nan,
   fun _ => F.nan, fun _ => F.nan⟩

/-- The initial calculator state: register 0, no variables. -/
def emptyState : CalcState := ⟨F.fin 0, []⟩

/-- A state with the variable `x = 10` defined. -/
def stateWithX : CalcState := ⟨F.fin 0, [("x", F.fin 10)]⟩

/-- The recognized function-name set of the specification: memory ops,
valid conversion identifiers (which contain `_to_`), and the built-in
unary functions. -/
def recognizedFunctionName (f : String) : Prop :=
  f = "m+" ∨ f = "m-" ∨ f = "mr" ∨ f = "mc" ∨
  (containsToStr f ∧ is_valid_conversion f) ∨ f ∈ builtinFunctions

instance (f : String) : Decidable (recognizedFunctionName f) := by
  unfold recognizedFunctionName
  infer_instance

/-- Tokens whose evaluation mutates the memory register (`m+`, `m-`,
`mc`; `mr` only reads). -/
def isMemFun (t : Token) : Bool :=
  match t with
  | .function f => f = "m+" ∨ f = "m-" ∨ f = "mc"
  | _ => false

/-- A tokenization result contains no register-mutating function
token (vacuously true for a tokenization error). -/
def noMemTokens : Except CalcError (List Token) → Bool
  | .error _ => true
  | .ok toks => toks.all (fun t => !(isMemFun t))

/-! ## Claims -/

/-- C1: `evaluate` applies standard operator precedence and
parenthesization: `evaluate("2 + 3 * 4")` returns `Ok(14.0)`
(multiplication binds tighter than addition) and
`evaluate("(2 + 3) * 4")` returns `Ok(20.0)` (a parenthesized group is
evaluated before the surrounding operator).  Proved for every oracle
and every starting state. -/
theorem claim_C1_precedence (O : TransOracle) (st : CalcState) :
    (evaluate_expression O st "2 + 3 * 4").1 = Except.ok (F.fin 14) ∧
    (evaluate_expression O st "(2 + 3) * 4").1 = Except.ok (F.fin 20) :=
  ⟨rfl, rfl⟩

/-- C2: `^` binds tighter than `*` and is right-associative in the
shunting-yard conversion: `evaluate("2 + 3 * 4 ^ 2") = Ok(50.0)`,
`evaluate("(2 + 3 * 4) ^ 2") = Ok(196.0)`,
`evaluate("2^3^2") = Ok(512.0)`; moreover an incoming `^` never pops a
`^` of equal precedence from the operator stack. -/
theorem claim_C2_exponent (O : TransOracle) (st : CalcState) :
    (evaluate_expression O st "2 + 3 * 4 ^ 2").1 = Except.ok (F.fin 50) ∧
    (evaluate_expression O st "(2 + 3 * 4) ^ 2").1 = Except.ok (F.fin 196) ∧
    (evaluate_expression O st "2^3^2").1 = Except.ok (F.fin 512) ∧
    (∀ rest out, popOps "^" (Token.operator "^" :: rest) out =
      (Token.operator "^" :: rest, out)) :=
  ⟨rfl, rfl, rfl, fun _ _ => rfl⟩

/-- C3: for the three-token stream `a / b` the evaluator returns
`Ok(a/b)` when `b ≠ 0` and `MathError` when `b = 0`; the same
dichotomy holds for `%`; and `+`, `-`, `*` never return an error. -/
theorem claim_C3_division_dichotomy (a b : ℚ) :
    (b ≠ 0 →
      evaluate_binary_operation (F.fin a) "/" (F.fin b) =
        Except.ok (F.fin (a / b))) ∧
    evaluate_binary_operation (F.fin a) "/" (F.fin 0) =
      Except.error (CalcError.mathError "Division by zero") ∧
    (b ≠ 0 →
      evaluate_binary_operation (F.fin a) "%" (F.fin b) =
        Except.ok (F.fin (a - b * ratTrunc (a / b)))) ∧
    evaluate_binary_operation (F.fin a) "%" (F.fin 0) =
      Except.error (CalcError.mathError "Modulo by zero") ∧
    (∀ x y : F,
      evaluate_binary_operation x "+" y = Except.ok (x.add y) ∧
      evaluate_binary_operation x "-" y = Except.ok (x.sub y) ∧
      evaluate_binary_operation x "*" y = Except.ok (x.mul y)) ∧
    (∀ O st, b ≠ 0 →
      dispatchTokens O st
          [Token.number (F.fin a), Token.operator "/", Token.number (F.fin b)] =
        (Except.ok (F.fin (a / b)), st)) ∧
    (∀ O st,
      dispatchTokens O st
          [Token.number (F.fin a), Token.operator "/", Token.number (F.fin 0)] =
        (Except.error (CalcError.mathError "Division by zero"), st)) := by
  refine ⟨?_, ?_, ?_, ?_, fun x y => ⟨rfl, rfl, rfl⟩, ?_, ?_⟩
  · intro hb
    simp [evaluate_binary_operation, F.isZero, hb, F.div]
  · rfl
  · intro hb
    simp [evaluate_binary_operation, F.isZero, hb, F.rem]
  · rfl
  · intro O st hb
    simp [dispatchTokens, Token.is_operator, Token.get_number,
      Token.get_operator, evaluate_binary_operation, F.isZero, hb, F.div]
  · intro O st
    rfl

/-- Witness for C3 at `a = 1`, `b = 2`. -/
theorem claim_C3_division_dichotomy_witness :
    evaluate_binary_operation (F.fin 1) "/" (F.fin 2) =
      Except.ok (F.fin (1 / 2)) :=
  (claim_C3_division_dichotomy 1 2).1 (by norm_num)

/-- C4: memory-register round trip.  After `mc` (register zeroed,
`Ok(0.0)`), `5 m+` returns `Ok(5.0)`, then `3 m-` returns `Ok(2.0)`,
then `mr` returns `Ok(2.0)` leaving the register unchanged; and in
general `m+` adds its operand to the register returning the new value,
`m-` subtracts, `mr` reads without modification, `mc` zeroes. -/
theorem claim_C4_memory_round_trip (O : TransOracle) (st : CalcState) :
    evaluate_expression O st "mc" = (Except.ok (F.fin 0), { st with mem := F.fin 0 }) ∧
    evaluate_expression O { st with mem := F.fin 0 } "5 m+" =
      (Except.ok (F.fin 5), { st with mem := F.fin 5 }) ∧
    evaluate_expression O { st with mem := F.fin 5 } "3 m-" =
      (Except.ok (F.fin 2), { st with mem := F.fin 2 }) ∧
    evaluate_expression O { st with mem := F.fin 2 } "mr" =
      (Except.ok (F.fin 2), { st with mem := F.fin 2 }) ∧
    (∀ v, evaluate_function O st "m+" v =
      (Except.ok (st.mem.add v), { st with mem := st.mem.add v })) ∧
    (∀ v, evaluate_function O st "m-" v =
      (Except.ok (st.mem.sub v), { st with mem := st.mem.sub v })) ∧
    (∀ v, evaluate_function O st "mr" v = (Except.ok st.mem, st)) ∧
    (∀ v, evaluate_function O st "mc" v =
      (Except.ok (F.fin 0), { st with mem := F.fin 0 })) :=
  ⟨rfl, rfl, rfl, rfl, fun _ => rfl, fun _ => rfl, fun _ => rfl, fun _ => rfl⟩

/-- C6 counterexample: a parenthesized lone operand is NOT accepted:
`evaluate("(5)")` returns `SyntaxError("Invalid expression format")`
(the three-token stream `( 5 )` is routed to the binary-operation
matcher, which requires an operator in the middle), not `Ok(5.0)`. -/
theorem claim_C6_counterexample :
    evaluate_expression defaultOracle emptyState "(5)" =
      (Except.error (CalcError.syntaxError "Invalid expression format"),
       emptyState) := rfl

/-- C6 amended: a parenthesized lone operand `(n)` fails with
`SyntaxError("Invalid expression format")` because token streams of
length ≤ 3 bypass the general parser; parenthesized subexpressions are
accepted wherever an operand may appear inside larger expressions
(more than three tokens), e.g. `((5))` evaluates to `Ok(5.0)`,
`(5) + 2` to `Ok(7.0)`, and the general parser reduces `( ( n ) )`
to `n` for every number `n`. -/
theorem claim_C6_amended_parenthesized_operand (O : TransOracle) (st : CalcState) :
    evaluate_expression O st "(5)" =
      (Except.error (CalcError.syntaxError "Invalid expression format"), st) ∧
    (evaluate_expression O st "((5))").1 = Except.ok (F.fin 5) ∧
    (evaluate_expression O st "(5) + 2").1 = Except.ok (F.fin 7) ∧
    (∀ v : F, evaluate_complex_expression O st
        [Token.leftParen, Token.leftParen, Token.number v,
         Token.rightParen, Token.rightParen] = (Except.ok v, st)) :=
  ⟨rfl, rfl, rfl, fun _ => rfl⟩

/-- The factorial loop computes the factorial:
`factProd n = n!` (as an exact rational). -/
theorem factProd_eq_factorial (n : ℕ) : factProd n = Nat.factorial n := by
  induction n with
  | zero => rfl
  | succ m ih =>
      cases m with
      | zero => rfl
      | succ k =>
          unfold factProd at ih ⊢
          simp only [Nat.add_sub_cancel] at ih ⊢
          rw [List.range'_concat, List.foldl_append]
          simp only [List.foldl_cons, List.foldl_nil]
          rw [show (2 + 1 * k : ℕ) = k + 2 from by omega]
          rw [ih, ← Nat.cast_mul]
          norm_cast
          conv_rhs => rw [Nat.factorial_succ]
          ring

/-- C9: `fact` requires a non-negative integral argument and computes
the iterative product `2..=n` (which equals `n!`), with
`fact(0) = 1`: `evaluate("fact 5") = Ok(120.0)`,
`evaluate("fact 0") = Ok(1.0)`, while `evaluate("fact -1")` and
`evaluate("fact 1.5")` return `ArgumentError`s. -/
theorem claim_C9_factorial (O : TransOracle) (st : CalcState) :
    (evaluate_expression O st "fact 5").1 = Except.ok (F.fin 120) ∧
    (evaluate_expression O st "fact 0").1 = Except.ok (F.fin 1) ∧
    (evaluate_expression O st "fact -1").1 =
      Except.error (CalcError.argumentError
        "Cannot calculate factorial of negative number") ∧
    (evaluate_expression O st "fact 1.5").1 =
      Except.error (CalcError.argumentError
        "Factorial requires an integer value") ∧
    (∀ q : ℚ, q < 0 → evaluate_function O st "fact" (F.fin q) =
      (Except.error (CalcError.argumentError
        "Cannot calculate factorial of negative number"), st)) ∧
    (∀ q : ℚ, 0 ≤ q → q.den ≠ 1 → evaluate_function O st "fact" (F.fin q) =
      (Except.error (CalcError.argumentError
        "Factorial requires an integer value"), st)) ∧
    (∀ n : ℕ, n < 2 ^ 64 → evaluate_function O st "fact" (F.fin n) =
      (Except.ok (F.fin (factProd n)), st)) ∧
    (∀ n : ℕ, factProd n = Nat.factorial n) := by
  refine ⟨rfl, rfl, rfl, rfl, ?_, ?_, ?_, factProd_eq_factorial⟩
  · intro q hq
    simp [evaluate_function, F.lt0, hq]
  · intro q hq hden
    simp [evaluate_function, F.lt0, not_lt.mpr hq, F.fractNonzero, hden]
  · intro n hn
    have hnum : ((n : ℚ)).num.toNat = n := by
      rw [Rat.num_natCast]
      exact Int.toNat_natCast n
    have hmin : min ((n : ℚ)).num.toNat (2 ^ 64 - 1) = n := by
      rw [hnum]
      exact Nat.min_eq_left (by omega)
    simp [evaluate_function, F.lt0, F.fractNonzero, Rat.den_natCast,
      F.toU64, hnum, not_lt.mpr (by positivity : (0 : ℚ) ≤ (n : ℚ))]
    rw [show n ⊓ 18446744073709551615 = n from inf_eq_left.mpr (by omega)]

/-- Witness for C9 at `q = -1`, `q = 3/2`, `n = 5`. -/
theorem claim_C9_factorial_witness :
    evaluate_function defaultOracle emptyState "fact" (F.fin (-1)) =
      (Except.error (CalcError.argumentError
        "Cannot calculate factorial of negative number"), emptyState) ∧
    evaluate_function defaultOracle emptyState "fact" (F.fin (3 / 2)) =
      (Except.error (CalcError.argumentError
        "Factorial requires an integer value"), emptyState) ∧
    evaluate_function defaultOracle emptyState "fact" (F.fin (5 : ℕ)) =
      (Except.ok (F.fin (factProd 5)), emptyState) :=
  ⟨(claim_C9_factorial defaultOracle emptyState).2.2.2.2.1 (-1) (by norm_num),
   (claim_C9_factorial defaultOracle emptyState).2.2.2.2.2.1 (3 / 2)
     (by norm_num) (by decide),
   (claim_C9_factorial defaultOracle emptyState).2.2.2.2.2.2.1 5 (by norm_num)⟩

/-- C5 counterexample: the two-part constant-conversion form does NOT
work for `tau`: `evaluate("tau rad_to_deg")` returns
`SyntaxError("Invalid expression format")`, not `Ok` of the conversion
formula (only `pi` and `e` are checked in the two-part fast path, and
the `[Number, Function]` stream the tokenizer then produces matches no
dispatch branch). -/
theorem claim_C5_counterexample :
    evaluate_expression defaultOracle emptyState "tau rad_to_deg" =
      (Except.error (CalcError.syntaxError "Invalid expression format"),
       emptyState) := rfl

/-- C5 amended: for the constants `pi` and `e` (case-insensitively)
and every recognized conversion identifier, `evaluate` of
`"<constant> <conv>"` returns the conversion function applied directly
to the constant's value (and every conversion application succeeds
without touching the state); `inf`/`infinity` also work, because the
numeric parser itself accepts them, yielding `Ok` of the formula
applied to infinity (= `Ok(inf)`); but `tau` and `phi` fail with
`SyntaxError("Invalid expression format")`. -/
theorem claim_C5_amended_constant_conversions :
    ∀ conv ∈ conversions, ∀ (O : TransOracle) (st : CalcState),
    (∀ v : F, ∃ r : F, evaluate_function O st conv v = (Except.ok r, st)) ∧
    evaluate_expression O st ("pi " ++ conv) =
      evaluate_function O st conv (F.fin piF64) ∧
    evaluate_expression O st ("PI " ++ conv) =
      evaluate_function O st conv (F.fin piF64) ∧
    evaluate_expression O st ("e " ++ conv) =
      evaluate_function O st conv (F.fin eF64) ∧
    evaluate_expression O st ("E " ++ conv) =
      evaluate_function O st conv (F.fin eF64) ∧
    (evaluate_expression O st ("inf " ++ conv)).1 = Except.ok F.inf ∧
    (evaluate_expression O st ("infinity " ++ conv)).1 = Except.ok F.inf ∧
    evaluate_expression O st ("tau " ++ conv) =
      (Except.error (CalcError.syntaxError "Invalid expression format"), st) ∧
    evaluate_expression O st ("phi " ++ conv) =
      (Except.error (CalcError.syntaxError "Invalid expression format"), st) := by
  intro conv hconv O st
  fin_cases hconv <;>
    exact ⟨fun v => ⟨_, rfl⟩, rfl, rfl, rfl, rfl, rfl, rfl, rfl, rfl⟩

/-- Witness for C5 at `conv = "rad_to_deg"`. -/
theorem claim_C5_amended_constant_conversions_witness :
    evaluate_expression defaultOracle emptyState "pi rad_to_deg" =
      evaluate_function defaultOracle emptyState "rad_to_deg" (F.fin piF64) :=
  (claim_C5_amended_constant_conversions "rad_to_deg" (by decide)
    defaultOracle emptyState).2.1

/-- C7 counterexample: the tokenizer does NOT reject every
unrecognized identifier: an identifier immediately followed by `(` is
emitted as a `Function` token without any validation, so
`tokenize("abc(5)")` succeeds and produces `Function("abc")` even
though `abc` is outside the recognized set; the failure only happens
later, in evaluation, as `SyntaxError("Unknown function: abc")` rather
than a `ParseError`. -/
theorem claim_C7_counterexample :
    tokenize emptyState "abc(5)" =
      Except.ok [Token.function "abc", Token.leftParen,
                 Token.number (F.fin 5), Token.rightParen] ∧
    ¬ recognizedFunctionName "abc" ∧
    (evaluate_expression defaultOracle emptyState "abc(5)").1 =
      Except.error (CalcError.syntaxError "Unknown function: abc") :=
  ⟨rfl, by decide, rfl⟩

/-- C7 amended: every `Function` token emitted by `add_token` (the
buffer-resolution path used at whitespace, operators, `)` and end of
input) has a name in the recognized set, and a buffer that matches
nothing — not a float, memory op, conversion, constant, built-in, or
stored variable — is rejected with `ParseError("Unknown token: ...")`;
but an identifier immediately followed by `(` bypasses `add_token` and
is emitted as an unvalidated `Function` token (see the
counterexample). -/
theorem claim_C7_amended_add_token_validation :
    (∀ (st : CalcState) (toks : List Token) (s : String)
        (toks2 : List Token),
      add_token st toks s = Except.ok toks2 →
      ∀ f, Token.function f ∈ toks2 →
        Token.function f ∈ toks ∨ recognizedFunctionName f) ∧
    (∀ (st : CalcState) (toks : List Token) (s : String),
      parseFloat s = none → constValue? s = none →
      get_variable st s = none → ¬ recognizedFunctionName s →
      add_token st toks s =
        Except.error (CalcError.parseError ("Unknown token: " ++ s))) := by
  constructor
  · intro st toks s toks2 h f hf
    unfold add_token at h
    split at h
    · rename_i v hp
      cases h
      rcases List.mem_append.mp hf with hl | hr
      · exact Or.inl hl
      · simp at hr
    · rename_i hp
      split at h
      · rename_i hmem
        cases h
        rcases List.mem_append.mp hf with hl | hr
        · exact Or.inl hl
        · simp at hr
          subst hr
          rcases hmem with h1 | h1 | h1 | h1 <;>
            exact Or.inr (by unfold recognizedFunctionName; tauto)
      · rename_i hmem
        split at h
        · rename_i hconvv
          cases h
          rcases List.mem_append.mp hf with hl | hr
          · exact Or.inl hl
          · simp at hr
            subst hr
            exact Or.inr (by unfold recognizedFunctionName; tauto)
        · rename_i hconvv
          split at h
          · rename_i v hc
            cases h
            rcases List.mem_append.mp hf with hl | hr
            · exact Or.inl hl
            · simp at hr
          · rename_i hc
            split at h
            · rename_i hbuiltin
              cases h
              rcases List.mem_append.mp hf with hl | hr
              · exact Or.inl hl
              · simp at hr
                subst hr
                refine Or.inr ?_
                unfold recognizedFunctionName
                have hmem2 := List.elem_iff.mp hbuiltin
                tauto
            · rename_i hbuiltin
              split at h
              · rename_i v hv
                cases h
                rcases List.mem_append.mp hf with hl | hr
                · exact Or.inl hl
                · simp at hr
              · exact absurd h (by simp)
  · intro st toks s hp hc hv hrec
    unfold recognizedFunctionName at hrec
    unfold add_token
    rw [hp]
    rw [if_neg (show ¬ (s = "m+" ∨ s = "m-" ∨ s = "mr" ∨ s = "mc") by tauto)]
    rw [if_neg (show ¬ (containsToStr s = true ∧ is_valid_conversion s = true)
          by tauto), hc]
    have hb : ¬ (builtinFunctions.contains s = true) := by
      intro hx
      have hmem2 := List.elem_iff.mp hx
      tauto
    rw [if_neg hb, hv]

/-- Witness for C7: `add_token` on the buffer `sqrt` emits a
recognized `Function` token, and on the unknown buffer `abc` (with no
such variable stored) fails with a `ParseError`. -/
theorem claim_C7_amended_add_token_validation_witness :
    (Token.function "sqrt" ∈ ([] : List Token) ∨
      recognizedFunctionName "sqrt") ∧
    add_token emptyState [] "abc" =
      Except.error (CalcError.parseError ("Unknown token: " ++ "abc")) :=
  ⟨claim_C7_amended_add_token_validation.1 emptyState [] "sqrt"
      [Token.function "sqrt"] rfl "sqrt" (by decide),
   claim_C7_amended_add_token_validation.2 emptyState [] "abc"
      rfl rfl rfl (by decide)⟩

/-- C10: the unary-minus rule only forms negative numeric literals: a
`-` at the start of the stream (or after an operator, left paren, or
function) that is glued to a following identifier produces an unknown
token, so `evaluate("-pi")` is `ParseError("Unknown token: -pi")` and,
with a variable `x` stored (but no variable named `-x`),
`evaluate("2 * -x")` is `ParseError("Unknown token: -x")`; negation of
such names needs an explicit form like `0 - pi`, which evaluates to
`Ok(0 - pi)`. -/
theorem claim_C10_unary_minus_identifiers (O : TransOracle) (st : CalcState) :
    (get_variable st "-pi" = none →
      evaluate_expression O st "-pi" =
        (Except.error (CalcError.parseError "Unknown token: -pi"), st)) ∧
    (∀ vx, get_variable st "x" = some vx → get_variable st "-x" = none →
      evaluate_expression O st "2 * -x" =
        (Except.error (CalcError.parseError "Unknown token: -x"), st)) ∧
    (evaluate_expression O st "0 - pi").1 = Except.ok (F.fin (0 - piF64)) := by
  refine ⟨?_, ?_, rfl⟩
  · intro h
    have ha : add_token st [] "-pi" =
        Except.error (CalcError.parseError "Unknown token: -pi") := by
      show (match get_variable st "-pi" with
            | some v => Except.ok ([] ++ [Token.number v])
            | none =>
                Except.error (CalcError.parseError ("Unknown token: " ++ "-pi"))) =
          Except.error (CalcError.parseError "Unknown token: -pi")
      rw [h]
      rfl
    have h2 : evaluate_expression O st "-pi" =
        (match tokenize st "-pi" with
         | .error e => (.error e, st)
         | .ok tokens => dispatchTokens O st tokens) := rfl
    have h3 : tokenize st "-pi" =
        (match add_token st [] "-pi" with
         | .error e => .error e
         | .ok toks => tokenizePost toks) := rfl
    rw [h2, h3, ha]
  · intro vx hx hnone
    have ha : add_token st [Token.number (F.fin 2), Token.operator "*"] "-x" =
        Except.error (CalcError.parseError "Unknown token: -x") := by
      show (match get_variable st "-x" with
            | some v =>
                Except.ok ([Token.number (F.fin 2), Token.operator "*"] ++
                  [Token.number v])
            | none =>
                Except.error (CalcError.parseError ("Unknown token: " ++ "-x"))) =
          Except.error (CalcError.parseError "Unknown token: -x")
      rw [hnone]
      rfl
    have h2 : evaluate_expression O st "2 * -x" =
        (match tokenize st "2 * -x" with
         | .error e => (.error e, st)
         | .ok tokens => dispatchTokens O st tokens) := rfl
    have h3 : tokenize st "2 * -x" =
        (match add_token st [Token.number (F.fin 2), Token.operator "*"] "-x" with
         | .error e => .error e
         | .ok toks => tokenizePost toks) := rfl
    rw [h2, h3, ha]

/-- Witness for C10 in the state where `x = 10` is stored. -/
theorem claim_C10_unary_minus_identifiers_witness :
    evaluate_expression defaultOracle stateWithX "2 * -x" =
      (Except.error (CalcError.parseError "Unknown token: -x"), stateWithX) :=
  (claim_C10_unary_minus_identifiers defaultOracle stateWithX).2.1
    (F.fin 10) (by decide) (by decide)

/-! ## State-preservation lemmas (for claim C8) -/

/-- `evaluate_function` never touches the variable store. -/
theorem evaluate_function_vars (O : TransOracle) (st : CalcState)
    (f : String) (v : F) :
    ((evaluate_function O st f v).2).vars = st.vars := by
  unfold evaluate_function
  split <;> (repeat' split) <;> rfl

/-- `evaluate_function` leaves the whole state untouched unless the
function is one of the register-mutating memory ops. -/
theorem evaluate_function_state (O : TransOracle) (st : CalcState)
    (f : String) (v : F) (hf : isMemFun (Token.function f) = false) :
    (evaluate_function O st f v).2 = st := by
  have h1 : ¬ (f = "m+" ∨ f = "m-" ∨ f = "mc") := by
    simpa [isMemFun] using hf
  unfold evaluate_function
  split <;> (repeat' split) <;> first
    | rfl
    | exact absurd (by tauto) h1

/-- The RPN loop never touches the variable store. -/
theorem rpnLoop_vars (O : TransOracle) :
    ∀ (ts : List Token) (st : CalcState) (stack : List F),
      ((rpnLoop O st ts stack).2).vars = st.vars := by
  intro ts
  induction ts with
  | nil => intro st stack; rfl
  | cons t ts ih =>
      intro st stack
      cases t with
      | number n => exact ih st (n :: stack)
      | operator op =>
          cases stack with
          | nil => rfl
          | cons right rest =>
              cases rest with
              | nil => rfl
              | cons left rest2 =>
                  simp only [rpnLoop]
                  cases evaluate_binary_operation left op right with
                  | error e => rfl
                  | ok r => exact ih st (r :: rest2)
      | function f =>
          cases stack with
          | nil => rfl
          | cons arg rest =>
              simp only [rpnLoop]
              have hv := evaluate_function_vars O st f arg
              rcases hef : evaluate_function O st f arg with ⟨res, st2⟩
              rw [hef] at hv
              cases res with
              | error e => exact hv
              | ok r => exact (ih st2 (r :: rest)).trans hv
      | leftParen => rfl
      | rightParen => rfl

/-- The RPN loop leaves the whole state untouched when no
register-mutating token occurs in the stream. -/
theorem rpnLoop_state (O : TransOracle) :
    ∀ (ts : List Token) (st : CalcState) (stack : List F),
      (∀ t ∈ ts, isMemFun t = false) →
      (rpnLoop O st ts stack).2 = st := by
  intro ts
  induction ts with
  | nil => intro st stack _; rfl
  | cons t ts ih =>
      intro st stack h
      have hts : ∀ x ∈ ts, isMemFun x = false :=
        fun x hx => h x (List.mem_cons_of_mem _ hx)
      cases t with
      | number n => exact ih st (n :: stack) hts
      | operator op =>
          cases stack with
          | nil => rfl
          | cons right rest =>
              cases rest with
              | nil => rfl
              | cons left rest2 =>
                  simp only [rpnLoop]
                  cases evaluate_binary_operation left op right with
                  | error e => rfl
                  | ok r => exact ih st (r :: rest2) hts
      | function f =>
          cases stack with
          | nil => rfl
          | cons arg rest =>
              simp only [rpnLoop]
              have hst : (evaluate_function O st f arg).2 = st :=
                evaluate_function_state O st f arg
                  (h (Token.function f) (List.mem_cons_self _ _))
              rcases hef : evaluate_function O st f arg with ⟨res, st2⟩
              rw [hef] at hst
              cases res with
              | error e => exact hst
              | ok r =>
                  have h2 : st2 = st := hst
                  subst h2
                  exact ih st2 (r :: rest) hts
      | leftParen => rfl
      | rightParen => rfl

/-- `evaluate_rpn` never touches the variable store. -/
theorem evaluate_rpn_vars (O : TransOracle) (st : CalcState)
    (tokens : List Token) :
    ((evaluate_rpn O st tokens).2).vars = st.vars := by
  unfold evaluate_rpn
  have h := rpnLoop_vars O tokens st []
  rcases hr : rpnLoop O st tokens [] with ⟨res, st2⟩
  rw [hr] at h
  cases res with
  | error e => exact h
  | ok l =>
      cases l with
      | nil => exact h
      | cons v rest =>
          cases rest with
          | nil => exact h
          | cons w rest2 => exact h

/-- `evaluate_rpn` leaves the whole state untouched when no
register-mutating token occurs in the stream. -/
theorem evaluate_rpn_state (O : TransOracle) (st : CalcState)
    (tokens : List Token) (h : ∀ t ∈ tokens, isMemFun t = false) :
    (evaluate_rpn O st tokens).2 = st := by
  unfold evaluate_rpn
  have hst := rpnLoop_state O tokens st [] h
  rcases hr : rpnLoop O st tokens [] with ⟨res, st2⟩
  rw [hr] at hst
  cases res with
  | error e => exact hst
  | ok l =>
      cases l with
      | nil => exact hst
      | cons v rest =>
          cases rest with
          | nil => exact hst
          | cons w rest2 => exact hst

/-- The general complex path never touches the variable store. -/
theorem complexGeneral_vars (O : TransOracle) (st : CalcState)
    (tokens : List Token) :
    ((complexGeneral O st tokens).2).vars = st.vars := by
  unfold complexGeneral
  cases shuntLoop tokens [] [] with
  | error e => rfl
  | ok rpn => exact evaluate_rpn_vars O st rpn

/-- `evaluate_complex_expression` never touches the variable store. -/
theorem evaluate_complex_expression_vars (O : TransOracle) (st : CalcState)
    (tokens : List Token) :
    ((evaluate_complex_expression O st tokens).2).vars = st.vars := by
  unfold evaluate_complex_expression
  split <;> (try split) <;>
    first
      | apply evaluate_function_vars
      | apply complexGeneral_vars

/-- The token-stream dispatch never touches the variable store. -/
theorem dispatchTokens_vars (O : TransOracle) (st : CalcState)
    (tokens : List Token) :
    ((dispatchTokens O st tokens).2).vars = st.vars := by
  unfold dispatchTokens
  split <;> (repeat' split) <;>
    first
      | rfl
      | apply evaluate_function_vars
      | apply evaluate_complex_expression_vars

/-- The general evaluation tail never touches the variable store. -/
theorem evaluate_general_vars (O : TransOracle) (st : CalcState)
    (e t : String) :
    ((evaluate_general O st e t).2).vars = st.vars := by
  unfold evaluate_general
  split
  · apply evaluate_function_vars
  · split
    · rfl
    · apply dispatchTokens_vars

/-- `evaluate_expression` never touches the variable store, on the
success path or on any error path. -/
theorem evaluate_expression_vars (O : TransOracle) (st : CalcState)
    (e : String) :
    ((evaluate_expression O st e).2).vars = st.vars := by
  unfold evaluate_expression
  split <;> (repeat' split) <;>
    first
      | rfl
      | apply evaluate_function_vars
      | apply evaluate_general_vars

/-- Tokens recovered from `popParen` come from the stack or the
output it was given. -/
theorem popParen_mem :
    ∀ (stack out s1 o1 : List Token),
      popParen stack out = some (s1, o1) →
      ∀ t, t ∈ s1 ∨ t ∈ o1 → t ∈ stack ∨ t ∈ out := by
  intro stack
  induction stack with
  | nil =>
      intro out s1 o1 h
      simp [popParen] at h
  | cons hd tl ih =>
      intro out s1 o1 h t hm
      have step : ∀ x : Token, popParen tl (out ++ [x]) = some (s1, o1) →
          t ∈ x :: tl ∨ t ∈ out := by
        intro x hx
        rcases ih (out ++ [x]) s1 o1 hx t hm with h1 | h2
        · exact Or.inl (List.mem_cons_of_mem _ h1)
        · rcases List.mem_append.mp h2 with h3 | h4
          · exact Or.inr h3
          · simp only [List.mem_singleton] at h4
            subst h4
            exact Or.inl (List.mem_cons_self _ _)
      cases hd with
      | leftParen =>
          simp only [popParen, Option.some.injEq, Prod.mk.injEq] at h
          obtain ⟨rfl, rfl⟩ := h
          rcases hm with h1 | h2
          · exact Or.inl (List.mem_cons_of_mem _ h1)
          · exact Or.inr h2
      | number v => exact step _ h
      | operator op => exact step _ h
      | function f => exact step _ h
      | rightParen => exact step _ h

/-- Tokens in the result of `popOps` come from the stack or the
output it was given. -/
theorem popOps_mem (op : String) :
    ∀ (stack out : List Token) (t : Token),
      (t ∈ (popOps op stack out).1 ∨ t ∈ (popOps op stack out).2) →
      t ∈ stack ∨ t ∈ out := by
  intro stack
  induction stack with
  | nil =>
      intro out t hm
      rcases hm with h1 | h2
      · simp [popOps] at h1
      · exact Or.inr h2
  | cons hd tl ih =>
      intro out t hm
      have step : ∀ x : Token,
          (t ∈ (popOps op tl (out ++ [x])).1 ∨
           t ∈ (popOps op tl (out ++ [x])).2) →
          t ∈ x :: tl ∨ t ∈ out := by
        intro x hx
        rcases ih (out ++ [x]) t hx with h1 | h2
        · exact Or.inl (List.mem_cons_of_mem _ h1)
        · rcases List.mem_append.mp h2 with h3 | h4
          · exact Or.inr h3
          · simp only [List.mem_singleton] at h4
            subst h4
            exact Or.inl (List.mem_cons_self _ _)
      cases hd with
      | operator top =>
          by_cases hc : get_precedence op ≤ get_precedence top ∧
              (op ≠ "^" ∨ get_precedence op < get_precedence top)
          · rw [show popOps op (Token.operator top :: tl) out =
                  popOps op tl (out ++ [Token.operator top]) from by
                simp only [popOps]
                rw [if_pos hc]] at hm
            exact step _ hm
          · rw [show popOps op (Token.operator top :: tl) out =
                  (Token.operator top :: tl, out) from by
                simp only [popOps]
                rw [if_neg hc]] at hm
            exact hm
      | function f => exact step _ hm
      | number v => exact hm
      | leftParen => exact hm
      | rightParen => exact hm

/-- Tokens in the result of `drainStack` come from the stack or the
output it was given. -/
theorem drainStack_mem :
    ∀ (stack out res : List Token),
      drainStack stack out = Except.ok res →
      ∀ t ∈ res, t ∈ stack ∨ t ∈ out := by
  intro stack
  induction stack with
  | nil =>
      intro out res h t ht
      simp only [drainStack, Except.ok.injEq] at h
      subst h
      exact Or.inr ht
  | cons hd tl ih =>
      intro out res h t ht
      have step : ∀ x : Token, drainStack tl (out ++ [x]) = Except.ok res →
          t ∈ x :: tl ∨ t ∈ out := by
        intro x hx
        rcases ih (out ++ [x]) res hx t ht with h1 | h2
        · exact Or.inl (List.mem_cons_of_mem _ h1)
        · rcases List.mem_append.mp h2 with h3 | h4
          · exact Or.inr h3
          · simp only [List.mem_singleton] at h4
            subst h4
            exact Or.inl (List.mem_cons_self _ _)
      cases hd with
      | leftParen => simp [drainStack] at h
      | rightParen => simp [drainStack] at h
      | number v => exact step _ h
      | operator op => exact step _ h
      | function f => exact step _ h

/-- Every token in the RPN output of the shunting-yard loop comes from
the input stream, the operator stack, or the output it was given. -/
theorem shuntLoop_mem :
    ∀ (ts opstack out res : List Token),
      shuntLoop ts opstack out = Except.ok res →
      ∀ t ∈ res, t ∈ ts ∨ t ∈ opstack ∨ t ∈ out := by
  intro ts
  induction ts with
  | nil =>
      intro opstack out res h t ht
      rcases drainStack_mem opstack out res h t ht with h1 | h2
      · exact Or.inr (Or.inl h1)
      · exact Or.inr (Or.inr h2)
  | cons t0 ts ih =>
      intro opstack out res h t ht
      cases t0 with
      | number v =>
          rcases ih opstack (out ++ [Token.number v]) res h t ht with h1 | h2 | h3
          · exact Or.inl (List.mem_cons_of_mem _ h1)
          · exact Or.inr (Or.inl h2)
          · rcases List.mem_append.mp h3 with h4 | h5
            · exact Or.inr (Or.inr h4)
            · simp only [List.mem_singleton] at h5
              subst h5
              exact Or.inl (List.mem_cons_self _ _)
      | function f =>
          rcases ih (Token.function f :: opstack) out res h t ht with h1 | h2 | h3
          · exact Or.inl (List.mem_cons_of_mem _ h1)
          · rcases List.mem_cons.mp h2 with h4 | h5
            · subst h4
              exact Or.inl (List.mem_cons_self _ _)
            · exact Or.inr (Or.inl h5)
          · exact Or.inr (Or.inr h3)
      | leftParen =>
          rcases ih (Token.leftParen :: opstack) out res h t ht with h1 | h2 | h3
          · exact Or.inl (List.mem_cons_of_mem _ h1)
          · rcases List.mem_cons.mp h2 with h4 | h5
            · subst h4
              exact Or.inl (List.mem_cons_self _ _)
            · exact Or.inr (Or.inl h5)
          · exact Or.inr (Or.inr h3)
      | operator op =>
          rcases ih (Token.operator op :: (popOps op opstack out).1)
              ((popOps op opstack out).2) res h t ht with h1 | h2 | h3
          · exact Or.inl (List.mem_cons_of_mem _ h1)
          · rcases List.mem_cons.mp h2 with h4 | h5
            · subst h4
              exact Or.inl (List.mem_cons_self _ _)
            · rcases popOps_mem op opstack out t (Or.inl h5) with h6 | h7
              · exact Or.inr (Or.inl h6)
              · exact Or.inr (Or.inr h7)
          · rcases popOps_mem op opstack out t (Or.inr h3) with h6 | h7
            · exact Or.inr (Or.inl h6)
            · exact Or.inr (Or.inr h7)
      | rightParen =>
          simp only [shuntLoop] at h
          rcases hp : popParen opstack out with _ | ⟨s1, o1⟩
          · rw [hp] at h
            simp at h
          · rw [hp] at h
            have fromPop : ∀ u : Token, u ∈ s1 ∨ u ∈ o1 →
                u ∈ Token.rightParen :: ts ∨ u ∈ opstack ∨ u ∈ out := by
              intro u hu
              rcases popParen_mem opstack out s1 o1 hp u hu with h4 | h5
              · exact Or.inr (Or.inl h4)
              · exact Or.inr (Or.inr h5)
            cases s1 with
            | nil =>
                rcases ih [] o1 res h t ht with h1 | h2 | h3
                · exact Or.inl (List.mem_cons_of_mem _ h1)
                · simp at h2
                · exact fromPop t (Or.inr h3)
            | cons s1h s1t =>
                cases s1h with
                | function f =>
                    rcases ih s1t (o1 ++ [Token.function f]) res h t ht
                      with h1 | h2 | h3
                    · exact Or.inl (List.mem_cons_of_mem _ h1)
                    · exact fromPop t (Or.inl (List.mem_cons_of_mem _ h2))
                    · rcases List.mem_append.mp h3 with h4 | h5
                      · exact fromPop t (Or.inr h4)
                      · simp only [List.mem_singleton] at h5
                        subst h5
                        exact fromPop _ (Or.inl (List.mem_cons_self _ _))
                | number v =>
                    rcases ih (Token.number v :: s1t) o1 res h t ht
                      with h1 | h2 | h3
                    · exact Or.inl (List.mem_cons_of_mem _ h1)
                    · exact fromPop t (Or.inl h2)
                    · exact fromPop t (Or.inr h3)
                | operator op2 =>
                    rcases ih (Token.operator op2 :: s1t) o1 res h t ht
                      with h1 | h2 | h3
                    · exact Or.inl (List.mem_cons_of_mem _ h1)
                    · exact fromPop t (Or.inl h2)
                    · exact fromPop t (Or.inr h3)
                | leftParen =>
                    rcases ih (Token.leftParen :: s1t) o1 res h t ht
                      with h1 | h2 | h3
                    · exact Or.inl (List.mem_cons_of_mem _ h1)
                    · exact fromPop t (Or.inl h2)
                    · exact fromPop t (Or.inr h3)
                | rightParen =>
                    rcases ih (Token.rightParen :: s1t) o1 res h t ht
                      with h1 | h2 | h3
                    · exact Or.inl (List.mem_cons_of_mem _ h1)
                    · exact fromPop t (Or.inl h2)
                    · exact fromPop t (Or.inr h3)

/-- The general complex path leaves the whole state untouched when no
register-mutating token occurs in the input. -/
theorem complexGeneral_state (O : TransOracle) (st : CalcState)
    (tokens : List Token) (h : ∀ t ∈ tokens, isMemFun t = false) :
    (complexGeneral O st tokens).2 = st := by
  unfold complexGeneral
  rcases hs : shuntLoop tokens [] [] with e | rpn
  · rfl
  · refine evaluate_rpn_state O st rpn ?_
    intro t ht
    rcases shuntLoop_mem tokens [] [] rpn hs t ht with h1 | h2 | h3
    · exact h t h1
    · simp at h2
    · simp at h3

/-- `evaluate_complex_expression` leaves the whole state untouched
when no register-mutating token occurs in the input. -/
theorem evaluate_complex_expression_state (O : TransOracle) (st : CalcState)
    (tokens : List Token) (h : ∀ t ∈ tokens, isMemFun t = false) :
    (evaluate_complex_expression O st tokens).2 = st := by
  unfold evaluate_complex_expression
  split
  · rename_i f n
    split
    · rename_i hf
      have := h (Token.function f) (List.mem_cons_self _ _)
      simp [isMemFun] at this
      rcases hf with hf | hf <;> exact absurd hf (by tauto)
    · exact complexGeneral_state O st _ h
  · rename_i n f
    split
    · refine evaluate_function_state O st f n ?_
      exact h (Token.function f) (List.mem_cons_of_mem _ (List.mem_cons_self _ _))
    · exact complexGeneral_state O st _ h
  · exact complexGeneral_state O st _ h

/-- The token-stream dispatch leaves the whole state untouched when no
register-mutating token occurs in the stream. -/
theorem dispatchTokens_state (O : TransOracle) (st : CalcState)
    (tokens : List Token) (h : ∀ t ∈ tokens, isMemFun t = false) :
    (dispatchTokens O st tokens).2 = st := by
  unfold dispatchTokens
  split
  · rfl
  · rename_i t0 t1
    split
    · rcases hg : t0.get_function with e | f
      · rfl
      · rcases hn : t1.get_number with e | v
        · rfl
        · have ht0 : t0 = Token.function f := by
            cases t0 <;> simp [Token.get_function] at hg
            simp [hg]
          refine evaluate_function_state O st f v ?_
          have := h t0 (List.mem_cons_self _ _)
          rw [ht0] at this
          exact this
    · rfl
  · rename_i t0 t1 t2
    split
    · rcases t0.get_number with e | left
      · rfl
      · rcases t1.get_operator with e | op
        · rfl
        · rcases t2.get_number with e | right
          · rfl
          · rfl
    · rfl
  · rcases Token.get_number _ with e | v <;> rfl
  · exact evaluate_complex_expression_state O st _ h

/-- `convSuffixLoop` only returns conversion identifiers from its
list. -/
theorem convSuffixLoop_mem :
    ∀ (l : List String) (t c : String) (v : F),
      convSuffixLoop l t = some (c, v) → c ∈ l := by
  intro l
  induction l with
  | nil =>
      intro t c v h
      simp [convSuffixLoop] at h
  | cons conv rest ih =>
      intro t c v h
      simp only [convSuffixLoop] at h
      split at h
      · split at h
        · simp only [Option.some.injEq, Prod.mk.injEq] at h
          rw [← h.1]
          exact List.mem_cons_self _ _
        · exact List.mem_cons_of_mem _ (ih t c v h)
      · exact List.mem_cons_of_mem _ (ih t c v h)

/-- No conversion identifier is a register-mutating memory op. -/
theorem conversions_not_memfun :
    ∀ c ∈ conversions, isMemFun (Token.function c) = false := by decide

/-- The general evaluation tail leaves the whole state untouched when
the tokenization of the input contains no register-mutating token. -/
theorem evaluate_general_state (O : TransOracle) (st : CalcState)
    (e t : String) (hno : noMemTokens (tokenize st e) = true) :
    (evaluate_general O st e t).2 = st := by
  unfold evaluate_general
  rcases hc : convSuffixLoop conversions t with _ | ⟨conv, v⟩
  · rcases htk : tokenize st e with er | toks
    · rfl
    · refine dispatchTokens_state O st toks ?_
      intro tk htk2
      unfold noMemTokens at hno
      rw [htk] at hno
      have := List.all_eq_true.mp hno tk htk2
      simpa using this
  · exact evaluate_function_state O st conv v
      (conversions_not_memfun conv (convSuffixLoop_mem conversions t conv v hc))

/-- A conversion name taken from the table preserves the state. -/
theorem evaluate_function_conv_state (O : TransOracle) (st : CalcState)
    (c : String) (v : F) (hc : conversions.contains c = true) :
    (evaluate_function O st c v).2 = st :=
  evaluate_function_state O st c v
    (conversions_not_memfun c (List.elem_iff.mp hc))

/-- `evaluate_expression` leaves the whole state untouched when it
returns an error, provided its tokenization contains no
register-mutating token (the fast paths that mutate the register
always succeed, so an error implies the state is exactly as before). -/
theorem evaluate_expression_state_on_error (O : TransOracle) (st : CalcState)
    (e : String) (err : CalcError)
    (hno : noMemTokens (tokenize st e) = true)
    (herr : (evaluate_expression O st e).1 = Except.error err) :
    (evaluate_expression O st e).2 = st := by
  unfold evaluate_expression at herr ⊢
  by_cases h1 : strTrim e = "mr"
  · rw [if_pos h1] at herr
    simp at herr
  · rw [if_neg h1] at herr ⊢
    by_cases h2 : strTrim e = "mc"
    · rw [if_pos h2] at herr
      simp at herr
    · rw [if_neg h2] at herr ⊢
      rcases hm1 : (if strEndsWith (strTrim e) "m+" then
          parseFloat (strTrim (strDropRight (strTrim e) 2)) else none) with _ | v
      · rcases hm2 : (if strEndsWith (strTrim e) "m-" then
            parseFloat (strTrim (strDropRight (strTrim e) 2)) else none) with _ | v
        · rcases hsw : splitWhitespace (strTrim e) with _ | ⟨p0, ptl⟩
          · exact evaluate_general_state O st e _ hno
          · rcases ptl with _ | ⟨p1, ptl2⟩
            · exact evaluate_general_state O st e _ hno
            · rcases ptl2 with _ | ⟨p2, ptl3⟩
              · change (match parseFloat p0 with
                    | some v =>
                        if conversions.contains p1 = true then
                          evaluate_function O st p1 v
                        else evaluate_general O st e (strTrim e)
                    | none =>
                        if strToLower p0 = "pi" ∧ conversions.contains p1 = true then
                          evaluate_function O st p1 (F.fin piF64)
                        else if strToLower p0 = "e" ∧ conversions.contains p1 = true then
                          evaluate_function O st p1 (F.fin eF64)
                        else evaluate_general O st e (strTrim e)).2 = st
                rcases hp : parseFloat p0 with _ | v
                · change (if strToLower p0 = "pi" ∧ conversions.contains p1 = true then
                        evaluate_function O st p1 (F.fin piF64)
                      else if strToLower p0 = "e" ∧ conversions.contains p1 = true then
                        evaluate_function O st p1 (F.fin eF64)
                      else evaluate_general O st e (strTrim e)).2 = st
                  by_cases hpi : strToLower p0 = "pi" ∧ conversions.contains p1 = true
                  · rw [if_pos hpi]
                    exact evaluate_function_conv_state O st p1 _ hpi.2
                  · rw [if_neg hpi]
                    by_cases he : strToLower p0 = "e" ∧ conversions.contains p1 = true
                    · rw [if_pos he]
                      exact evaluate_function_conv_state O st p1 _ he.2
                    · rw [if_neg he]
                      exact evaluate_general_state O st e _ hno
                · change (if conversions.contains p1 = true then
                        evaluate_function O st p1 v
                      else evaluate_general O st e (strTrim e)).2 = st
                  by_cases hc : conversions.contains p1 = true
                  · rw [if_pos hc]
                    exact evaluate_function_conv_state O st p1 _ hc
                  · rw [if_neg hc]
                    exact evaluate_general_state O st e _ hno
              · exact evaluate_general_state O st e _ hno
        · rw [hm1, hm2] at herr
          simp at herr
      · rw [hm1] at herr
        simp at herr

/-- C8 counterexample: atomicity on error FAILS.  Starting from a zero
register, `evaluate("5 m+ / 0")` returns `MathError("Division by
zero")` — yet the register has been mutated to 5.0 by the `m+`
evaluated before the failing division. -/
theorem claim_C8_counterexample :
    evaluate_expression defaultOracle emptyState "5 m+ / 0" =
      (Except.error (CalcError.mathError "Division by zero"),
       { mem := F.fin 5, vars := [] }) ∧
    ({ mem := F.fin 5, vars := [] } : CalcState) ≠ emptyState :=
  ⟨rfl, by decide⟩

/-- C8 amended: `evaluate` never mutates the variable store (on
success or on error), and an erroring evaluation leaves the memory
register untouched PROVIDED the tokenized expression contains no
register-mutating memory function (`m+`/`m-`/`mc`); when it does, the
register mutations performed before the error persist, as in
`"5 m+ / 0"` (see the counterexample). -/
theorem claim_C8_amended_error_state (O : TransOracle) (st : CalcState)
    (e : String) :
    ((evaluate_expression O st e).2).vars = st.vars ∧
    (∀ err : CalcError,
      noMemTokens (tokenize st e) = true →
      (evaluate_expression O st e).1 = Except.error err →
      (evaluate_expression O st e).2 = st) :=
  ⟨evaluate_expression_vars O st e,
   fun err hno herr => evaluate_expression_state_on_error O st e err hno herr⟩

/-- Witness for C8 at `"1 / 0"` (no memory token; the state is fully
preserved on the division-by-zero error). -/
theorem claim_C8_amended_error_state_witness :
    (evaluate_expression defaultOracle emptyState "1 / 0").2 = emptyState :=
  (claim_C8_amended_error_state defaultOracle emptyState "1 / 0").2
    (CalcError.mathError "Division by zero") (by decide) rfl

end RustCalc
